import Mathlib

/-!
Verification development for the byvalver test/verification harness
(`verify_denulled.py` and `test_all_bins.py`).

The Python sources are shallowly embedded: byte sequences become `List Nat`
(each element intended in `[0,255]`), bad-character sets become `Finset Nat`,
the filesystem becomes a map from path strings to a `FileState`, and the
external transformer process becomes an abstract behaviour datatype.
-/

/-- One hexadecimal digit, as accepted by Python `int(_, 16)`. -/
def hexDigitVal (c : Char) : Option Nat :=
  if '0' ≤ c ∧ c ≤ '9' then some (c.toNat - '0'.toNat)
  else if 'a' ≤ c ∧ c ≤ 'f' then some (c.toNat - 'a'.toNat + 10)
  else if 'A' ≤ c ∧ c ≤ 'F' then some (c.toNat - 'A'.toNat + 10)
  else none

/-- Hex digit string with underscores allowed between digits (Python numeric
literal rule used by `int(_, 16)`): accumulator, flag whether the previous
character was a digit, remaining characters. -/
def hexDigitsVal (acc : Nat) (prevDigit : Bool) : List Char → Option Nat
  | [] => if prevDigit then some acc else none
  | c :: rest =>
    if c = '_' then
      if prevDigit then hexDigitsVal acc false rest else none
    else
      match hexDigitVal c with
      | some d => hexDigitsVal (16 * acc + d) true rest
      | none => none

/-- Digits directly after a `0x` base prefix; Python allows one underscore
right after the prefix. -/
def hexDigitsStart : List Char → Option Nat
  | '_' :: rest => hexDigitsVal 0 false rest
  | rest => hexDigitsVal 0 false rest

/-- Unsigned part of Python `int(s, 16)`: optional `0x`/`0X` prefix, then
at least one hex digit. -/
def pyIntHexBody : List Char → Option Nat
  | '0' :: 'x' :: rest => hexDigitsStart rest
  | '0' :: 'X' :: rest => hexDigitsStart rest
  | cs => hexDigitsVal 0 false cs

/-- Python `str.strip()` on a character list: drop whitespace from both
ends. -/
def pyStrip (cs : List Char) : List Char :=
  ((cs.dropWhile Char.isWhitespace).reverse.dropWhile Char.isWhitespace).reverse

/-- Python `s.split(',')` on a character list: split at every comma,
keeping empty pieces; the empty string yields one empty piece. -/
def pySplitComma : List Char → List (List Char)
  | [] => [[]]
  | c :: rest =>
    let r := pySplitComma rest
    if c = ',' then [] :: r
    else
      match r with
      | t :: ts => (c :: t) :: ts
      | [] => [[c]]

/-- Model of Python `int(s, 16)`: surrounding whitespace ignored, optional
sign, optional `0x` prefix, hex digits; `none` models `ValueError`. -/
def pyIntHex (cs : List Char) : Option Int :=
  match pyStrip cs with
  | '-' :: rest => (pyIntHexBody rest).map (fun n => -(n : Int))
  | '+' :: rest => (pyIntHexBody rest).map (fun n => (n : Int))
  | rest => (pyIntHexBody rest).map (fun n => (n : Int))

/-- The value contributed by one comma-separated token of the bad-chars
string: stripped, parsed as hex, kept only when in `[0,255]`
(`parse_bad_chars` loop body in `verify_denulled.py`). -/
def tokenVal (part : List Char) : Option Nat :=
  let p := pyStrip part
  if p = [] then none
  else
    match pyIntHex p with
    | some byte_val =>
      if 0 ≤ byte_val ∧ byte_val ≤ 255 then some byte_val.toNat else none
    | none => none

/-- Fold step of `parse_bad_chars`: add a token's value when it is valid
and in range, else leave the set unchanged (dropping the token). -/
def addToken (acc : Finset Nat) (part : List Char) : Finset Nat :=
  match tokenVal part with
  | some v => insert v acc
  | none => acc

/-- Model of `parse_bad_chars` from `verify_denulled.py`: split on commas, keep valid
in-range hex tokens, fall back to `{0x00}` on empty input or when nothing
valid survives. -/
def parse_bad_chars (bad_chars_str : String) : Finset Nat :=
  if bad_chars_str = "" then {0}
  else
    let bad_chars := (pySplitComma bad_chars_str.data).foldl addToken ∅
    if bad_chars = ∅ then {0} else bad_chars

/-- Longest prefix of bad bytes and the remainder (the inner
`while i < len and data[i] in bad_chars` loop of
`analyze_shellcode_for_bad_chars`). -/
def spanBad (S : Finset Nat) : List Nat → List Nat × List Nat
  | [] => ([], [])
  | b :: rest =>
    if b ∈ S then
      let r := spanBad S rest
      (b :: r.1, r.2)
    else ([], b :: rest)

theorem spanBad_snd_length_le (S : Finset Nat) (l : List Nat) :
    (spanBad S l).2.length ≤ l.length := by
  induction l with
  | nil => simp [spanBad]
  | cons b rest ih =>
    simp only [spanBad]
    split
    · exact Nat.le_succ_of_le ih
    · exact Nat.le_refl _

/-- The scanning loop of `analyze_shellcode_for_bad_chars`: starting at
offset `i`, returns `(bad_char_count, recorded (value, position) pairs,
bad_char_sequences)`.  Faithful to the source: on meeting a bad byte the
count is incremented once and one position recorded, then the whole
consecutive run is consumed by the inner loop. -/
def scanBad (S : Finset Nat) (i : Nat) : List Nat →
    Nat × List (Nat × Nat) × List (Nat × Nat × List Nat)
  | [] => (0, [], [])
  | b :: rest =>
    if b ∈ S then
      let seq := b :: (spanBad S rest).1
      let rem := (spanBad S rest).2
      let r := scanBad S (i + seq.length) rem
      (r.1 + 1, (b, i) :: r.2.1, (i, seq.length, seq) :: r.2.2)
    else
      scanBad S (i + 1) rest
termination_by l => l.length
decreasing_by
  · exact Nat.lt_succ_of_le (spanBad_snd_length_le S rest)
  · exact Nat.lt_succ_of_le (Nat.le_refl _)

/-- Result record of `analyze_shellcode_for_bad_chars`. -/
structure ByteAnalysis where
  total_bytes : Nat
  bad_char_count : Nat
  bad_char_percentage : ℚ
  bad_char_positions : Nat → List Nat
  bad_char_sequences : List (Nat × Nat × List Nat)
  max_consecutive_bad_chars : Nat
  bad_chars_used : Finset Nat

/-- Model of `analyze_shellcode_for_bad_chars` from `verify_denulled.py`. -/
def analyze_shellcode_for_bad_chars (shellcode_data : List Nat)
    (bad_chars : Finset Nat) : ByteAnalysis :=
  let r := scanBad bad_chars 0 shellcode_data
  { total_bytes := shellcode_data.length
    bad_char_count := r.1
    bad_char_percentage :=
      if shellcode_data.length = 0 then 0
      else (r.1 : ℚ) / (shellcode_data.length : ℚ) * 100
    bad_char_positions := fun b => (r.2.1.filter (fun p => decide (p.1 = b))).map (fun p => p.2)
    bad_char_sequences := r.2.2
    max_consecutive_bad_chars := (r.2.2.map (fun s => s.2.1)).foldr max 0
    bad_chars_used := bad_chars }

/-- Model of `analyze_shellcode_for_nulls` from `test_all_bins.py`: count the zero
bytes one by one. -/
def analyze_shellcode_for_nulls (shellcode_data : List Nat) : Nat :=
  shellcode_data.foldl (fun null_count byte => if byte = 0 then null_count + 1 else null_count) 0

/-- Spec-side count: the number of positions holding a member of the bad set
(what the spec calls the bad-byte count). -/
def countBadBytes (data : List Nat) (S : Finset Nat) : Nat :=
  (data.filter (fun b => decide (b ∈ S))).length

/-- C1: the claim says `bad_char_count` counts every bad byte, so for
`b"\x00\x00\x01"` with set `{0x00}` it would be 2 and the position list of
`0x00` would hold both offsets 0 and 1.  The code increments the count and
records a position only at the first byte of each consecutive run: it
returns `bad_char_count = 1` and position list `[0]`, while the number of
positions holding a bad byte is 2. -/
theorem C1_run_counting_bug :
    (analyze_shellcode_for_bad_chars [0, 0, 1] {0}).bad_char_count = 1 ∧
    (analyze_shellcode_for_bad_chars [0, 0, 1] {0}).bad_char_positions 0 = [0] ∧
    countBadBytes [0, 0, 1] {0} = 2 := by
  refine ⟨?_, ?_, by decide⟩ <;>
    simp [analyze_shellcode_for_bad_chars, scanBad, spanBad]

/-- C2: the runs themselves are computed correctly for
`b"\x00\x00\x01"` with set `{0x00}` — one run `(0, 2, [0,0])`, longest run 2 —
but the sum of run lengths is 2 while `bad_char_count` is 1, refuting the
claimed equality between the two. -/
theorem C2_run_length_sum_bug :
    (analyze_shellcode_for_bad_chars [0, 0, 1] {0}).bad_char_sequences = [(0, 2, [0, 0])] ∧
    (analyze_shellcode_for_bad_chars [0, 0, 1] {0}).max_consecutive_bad_chars = 2 ∧
    ((analyze_shellcode_for_bad_chars [0, 0, 1] {0}).bad_char_sequences.map
      (fun s => s.2.1)).sum = 2 ∧
    (analyze_shellcode_for_bad_chars [0, 0, 1] {0}).bad_char_count = 1 := by
  refine ⟨?_, ?_, ?_, ?_⟩ <;>
    simp [analyze_shellcode_for_bad_chars, scanBad, spanBad]

/-- C7: the runner's independent recount (`analyze_shellcode_for_nulls`)
counts every zero byte, while the analyzer's `bad_char_count` with set
`{0x00}` counts only one per consecutive run: on `b"\x00\x00"` they give
2 and 1 respectively, refuting the claimed equality. -/
theorem C7_recount_mismatch :
    analyze_shellcode_for_nulls [0, 0] = 2 ∧
    (analyze_shellcode_for_bad_chars [0, 0] {0}).bad_char_count = 1 := by
  refine ⟨by decide, ?_⟩
  simp [analyze_shellcode_for_bad_chars, scanBad, spanBad]

/-- State of a path on disk: absent (`os.path.exists` false), present with
readable contents, or present but failing to open (models the I/O
exceptions the batch verifier catches). -/
inductive FileState where
  | absent
  | present (data : List Nat)
  | unreadable
deriving DecidableEq

/-- A filesystem: contents by path. -/
def FileSystem : Type := String → FileState

/-- Model of `verify_bad_char_elimination` from `verify_denulled.py`.  The source
returns a `bool`; reads of an openable path succeed, an unreadable path
raises, which we model as `Except.error`.  A missing input or output file
prints an `[ERROR]` message and returns `False` (`Except.ok false`). -/
def verify_bad_char_elimination (fs : FileSystem) (input_file : String)
    (output_file : Option String) (bad_chars : Finset Nat) : Except String Bool :=
  match fs input_file with
  | .absent => .ok false
  | .unreadable => .error input_file
  | .present input_data =>
    match output_file with
    | none =>
      .ok (decide ((analyze_shellcode_for_bad_chars input_data bad_chars).bad_char_count = 0))
    | some out =>
      match fs out with
      | .absent => .ok false
      | .unreadable => .error out
      | .present output_data =>
        .ok (decide ((analyze_shellcode_for_bad_chars output_data bad_chars).bad_char_count = 0))

/-- C3: when both files exist and are readable, the verdict is `pass`
exactly when the processed file's analyzed bad-byte count is 0 — the
original's contents (hence its bad-byte count) and the size delta do not
enter the decision. -/
theorem C3_verdict_iff_processed_clean (fs : FileSystem) (input_file out : String)
    (bad_chars : Finset Nat) (input_data output_data : List Nat)
    (hin : fs input_file = .present input_data)
    (hout : fs out = .present output_data) :
    verify_bad_char_elimination fs input_file (some out) bad_chars = .ok true ↔
      (analyze_shellcode_for_bad_chars output_data bad_chars).bad_char_count = 0 := by
  simp [verify_bad_char_elimination, hin, hout]

/-- Concrete filesystem used by the witness of `C3_verdict_iff_processed_clean`. -/
def fsC3 : FileSystem := fun p =>
  if p = "in.bin" then .present [0, 1]
  else if p = "out.bin" then .present [1, 2, 3]
  else .absent

/-- Witness for C3: original `[0,1]` (one bad byte), processed `[1,2,3]`
(clean and longer) passes. -/
theorem C3_verdict_iff_processed_clean_witness :
    verify_bad_char_elimination fsC3 "in.bin" (some "out.bin") {0} = .ok true :=
  (C3_verdict_iff_processed_clean fsC3 "in.bin" "out.bin" {0} [0, 1] [1, 2, 3]
    (by decide) (by decide)).mpr
    (by simp [analyze_shellcode_for_bad_chars, scanBad, spanBad])

/-- Concrete filesystem used by the C6 counterexample: `orig.bin` exists and
is clean, `dirty.bin` exists with a bad byte, `gone.bin` does not exist. -/
def fsC6 : FileSystem := fun p =>
  if p = "orig.bin" then .present [1, 2]
  else if p = "dirty.bin" then .present [0, 2]
  else .absent

/-- C6 counterexample: a missing original file and a legitimate fail verdict
(processed file still containing a bad byte) produce the very same returned
value `False` — the two outcomes are not distinguishable by the return
value, refuting the claim. -/
theorem C6_missing_file_equals_fail_verdict :
    verify_bad_char_elimination fsC6 "gone.bin" (some "dirty.bin") {0} = .ok false ∧
    verify_bad_char_elimination fsC6 "orig.bin" (some "gone.bin") {0} = .ok false ∧
    verify_bad_char_elimination fsC6 "orig.bin" (some "dirty.bin") {0} = .ok false := by
  refine ⟨rfl, rfl, ?_⟩
  simp [verify_bad_char_elimination, fsC6, analyze_shellcode_for_bad_chars, scanBad, spanBad]

/-- C6 amended: a nonexistent original path, or a supplied but nonexistent
processed path, makes the engine return `False` — the same value as a
legitimate fail verdict; the environment problem is reported only through a
printed `[ERROR]` message, not through the returned value. -/
theorem C6_missing_file_returns_false (fs : FileSystem) (input_file : String)
    (output_file : Option String) (out : String) (input_data : List Nat)
    (bad_chars : Finset Nat) :
    (fs input_file = .absent →
      verify_bad_char_elimination fs input_file output_file bad_chars = .ok false) ∧
    (fs input_file = .present input_data → fs out = .absent →
      verify_bad_char_elimination fs input_file (some out) bad_chars = .ok false) := by
  constructor
  · intro h
    simp [verify_bad_char_elimination, h]
  · intro h1 h2
    simp [verify_bad_char_elimination, h1, h2]

/-- Witness for C6 amended at the concrete filesystem `fsC6`. -/
theorem C6_missing_file_returns_false_witness :
    verify_bad_char_elimination fsC6 "gone.bin" (some "dirty.bin") {0} = .ok false ∧
    verify_bad_char_elimination fsC6 "orig.bin" (some "gone.bin") {0} = .ok false :=
  ⟨(C6_missing_file_returns_false fsC6 "gone.bin" (some "dirty.bin") "dirty.bin" [] {0}).1
      (by decide),
   (C6_missing_file_returns_false fsC6 "orig.bin" (some "gone.bin") "gone.bin" [1, 2] {0}).2
      (by decide) (by decide)⟩

/-- The five outcome statuses assigned by `main` in `test_all_bins.py`. -/
inductive RunStatus where
  | TIMEOUT
  | SUCCESS
  | NULLS_REMAINING
  | ERROR
  | FAILED
deriving DecidableEq

/-- The result dictionary built by `run_byvalver` in `test_all_bins.py`
(fields the classification depends on; `-1` is the sentinel for "not
determined yet"). -/
structure RunResult where
  success : Bool
  exit_code : Option Int
  timed_out : Bool
  output_data : Option (List Nat)
  nulls_remaining : Int
  nulls_in_original : Int
deriving DecidableEq

/-- Abstract behaviour of one external transformer invocation: it either
hits the timeout, exits with a return code having produced an output file
or not, or the `subprocess` call raises some other exception. -/
inductive ProcBehavior where
  | timeout
  | exits (returncode : Int) (outputFile : Option (List Nat))
  | raises

/-- Model of `run_byvalver` from `test_all_bins.py`, as a function of the input
file's bytes and the process behaviour. -/
def run_byvalver (input_data : List Nat) (beh : ProcBehavior) : RunResult :=
  let result : RunResult :=
    { success := false, exit_code := none, timed_out := false,
      output_data := none, nulls_remaining := -1, nulls_in_original := -1 }
  match beh with
  | .timeout => { result with timed_out := true }
  | .raises => result
  | .exits returncode outputFile =>
    let result := { result with exit_code := some returncode }
    if returncode = 0 then
      match outputFile with
      | some out_data =>
        let result := { result with
          output_data := some out_data,
          nulls_remaining := (analyze_shellcode_for_nulls out_data : Int),
          nulls_in_original := (analyze_shellcode_for_nulls input_data : Int) }
        { result with
          success := decide (returncode = 0 ∧ result.nulls_remaining = 0) }
      | none => { result with success := false }
    else
      { result with success := false }

/-- The status-assignment chain of `main` in `test_all_bins.py`
(identical for the biphasic and non-biphasic runs). -/
def classify_outcome (r : RunResult) : RunStatus :=
  if r.timed_out then .TIMEOUT
  else if r.success then .SUCCESS
  else if r.exit_code = some 0 ∧ r.nulls_remaining > 0 then .NULLS_REMAINING
  else if r.exit_code ≠ some 0 then .ERROR
  else .FAILED

/-- C4: classification of a runner invocation.  A timeout yields `TIMEOUT`;
exit 0 with output present and zero recomputed residual nulls yields
`SUCCESS`; exit 0 with output present and a positive residual count yields
`NULLS_REMAINING`; any non-zero exit yields `ERROR` whether or not an
output file exists; exit 0 with the output file absent yields `FAILED`.
Being a single function into an enumerated type, the classification is a
pure function of the recorded fields and the statuses are exclusive. -/
theorem C4_status_classification (input_data out_data : List Nat) (code : Int)
    (optOut : Option (List Nat)) :
    classify_outcome (run_byvalver input_data .timeout) = .TIMEOUT ∧
    (analyze_shellcode_for_nulls out_data = 0 →
      classify_outcome (run_byvalver input_data (.exits 0 (some out_data))) = .SUCCESS) ∧
    (0 < analyze_shellcode_for_nulls out_data →
      classify_outcome (run_byvalver input_data (.exits 0 (some out_data))) =
        .NULLS_REMAINING) ∧
    (code ≠ 0 →
      classify_outcome (run_byvalver input_data (.exits code optOut)) = .ERROR) ∧
    classify_outcome (run_byvalver input_data (.exits 0 none)) = .FAILED := by
  refine ⟨?_, ?_, ?_, ?_, ?_⟩
  · simp [run_byvalver, classify_outcome]
  · intro h
    simp [run_byvalver, classify_outcome, h]
  · intro h
    have h0 : ((analyze_shellcode_for_nulls out_data : Int)) ≠ 0 := by
      exact_mod_cast Nat.pos_iff_ne_zero.mp h
    have h1 : (0 : Int) < (analyze_shellcode_for_nulls out_data : Int) := by
      exact_mod_cast h
    simp [run_byvalver, classify_outcome, h0, h1]
  · intro h
    cases optOut <;> simp [run_byvalver, classify_outcome, h]
  · simp [run_byvalver, classify_outcome]

/-- Witness for C4 at concrete inputs: output `[1,2]` is clean, `[0]` has a
residual null, exit code 2 is an error with or without an output file. -/
theorem C4_status_classification_witness :
    classify_outcome (run_byvalver [0] .timeout) = .TIMEOUT ∧
    classify_outcome (run_byvalver [0] (.exits 0 (some [1, 2]))) = .SUCCESS ∧
    classify_outcome (run_byvalver [0] (.exits 0 (some [0]))) = .NULLS_REMAINING ∧
    classify_outcome (run_byvalver [0] (.exits 2 (some [1]))) = .ERROR ∧
    classify_outcome (run_byvalver [0] (.exits 2 none)) = .ERROR ∧
    classify_outcome (run_byvalver [0] (.exits 0 none)) = .FAILED :=
  ⟨(C4_status_classification [0] [1, 2] 2 none).1,
   (C4_status_classification [0] [1, 2] 2 none).2.1 (by decide),
   (C4_status_classification [0] [0] 2 none).2.2.1 (by decide),
   (C4_status_classification [0] [1, 2] 2 (some [1])).2.2.2.1 (by decide),
   (C4_status_classification [0] [1, 2] 2 none).2.2.2.1 (by decide),
   (C4_status_classification [0] [1, 2] 2 none).2.2.2.2⟩

/-- The accumulator update `stats[...total_null_bytes_found...] += nulls`
performed by `main` in `test_all_bins.py` for each mode. -/
def update_total_null_bytes (total : Int) (r : RunResult) : Int :=
  total + r.nulls_remaining

/-- C10: on a timeout or a non-zero exit the sentinel `-1` is kept in both
`nulls_remaining` and `nulls_in_original`, and folding such an outcome into
the per-mode `total_null_bytes_found` accumulator decreases the total by
exactly one. -/
theorem C10_sentinel_skews_total (input_data : List Nat) (code : Int)
    (optOut : Option (List Nat)) (total : Int) :
    ((run_byvalver input_data .timeout).nulls_remaining = -1 ∧
      (run_byvalver input_data .timeout).nulls_in_original = -1 ∧
      update_total_null_bytes total (run_byvalver input_data .timeout) = total - 1) ∧
    (code ≠ 0 →
      (run_byvalver input_data (.exits code optOut)).nulls_remaining = -1 ∧
      (run_byvalver input_data (.exits code optOut)).nulls_in_original = -1 ∧
      update_total_null_bytes total (run_byvalver input_data (.exits code optOut)) =
        total - 1) := by
  constructor
  · refine ⟨rfl, rfl, ?_⟩
    simp [run_byvalver, update_total_null_bytes]
    omega
  · intro h
    refine ⟨?_, ?_, ?_⟩
    all_goals simp [run_byvalver, update_total_null_bytes, h]
    all_goals omega

/-- Witness for C10 at input `[0,0]`, exit code 2, total 5. -/
theorem C10_sentinel_skews_total_witness :
    update_total_null_bytes 5 (run_byvalver [0, 0] .timeout) = 4 ∧
    (run_byvalver [0, 0] (.exits 2 none)).nulls_remaining = -1 ∧
    update_total_null_bytes 5 (run_byvalver [0, 0] (.exits 2 none)) = 4 :=
  ⟨(C10_sentinel_skews_total [0, 0] 2 none 5).1.2.2,
   ((C10_sentinel_skews_total [0, 0] 2 none 5).2 (by decide)).1,
   ((C10_sentinel_skews_total [0, 0] 2 none 5).2 (by decide)).2.2⟩

/-- Loop body of the mode comparison in `main` of `test_all_bins.py`: the
accumulator is `(better_biphasic, better_non_biphasic, same_result)`. -/
def compare_step (acc : Nat × Nat × Nat) (test : RunStatus × RunStatus) :
    Nat × Nat × Nat :=
  let biphasic_success := test.1 = RunStatus.SUCCESS
  let non_biphasic_success := test.2 = RunStatus.SUCCESS
  if biphasic_success ∧ ¬ non_biphasic_success then (acc.1 + 1, acc.2.1, acc.2.2)
  else if non_biphasic_success ∧ ¬ biphasic_success then (acc.1, acc.2.1 + 1, acc.2.2)
  else (acc.1, acc.2.1, acc.2.2 + 1)

/-- The mode comparison of `main` in `test_all_bins.py`, over the per-file
pairs of statuses of the two modes. -/
def mode_comparison (tests : List (RunStatus × RunStatus)) : Nat × Nat × Nat :=
  tests.foldl compare_step (0, 0, 0)

theorem compare_step_shape (a b c : Nat) (t : RunStatus × RunStatus) :
    compare_step (a, b, c) t = (a + 1, b, c) ∨
    compare_step (a, b, c) t = (a, b + 1, c) ∨
    compare_step (a, b, c) t = (a, b, c + 1) := by
  unfold compare_step
  dsimp only
  split
  · exact Or.inl rfl
  · split
    · exact Or.inr (Or.inl rfl)
    · exact Or.inr (Or.inr rfl)

theorem mode_comparison_foldl_sum (tests : List (RunStatus × RunStatus))
    (a b c : Nat) :
    (tests.foldl compare_step (a, b, c)).1 +
      (tests.foldl compare_step (a, b, c)).2.1 +
      (tests.foldl compare_step (a, b, c)).2.2 = a + b + c + tests.length := by
  induction tests generalizing a b c with
  | nil => simp
  | cons t rest ih =>
    simp only [List.foldl_cons, List.length_cons]
    rcases compare_step_shape a b c t with h | h | h <;> rw [h, ih] <;> omega

/-- C9: every file falls into exactly one of the three buckets, so the
three counts sum to the corpus size; on the two-file corpus where mode A
succeeds while mode B reports residual nulls, and then both succeed, the
counts are (A better, B better, same) = (1, 0, 1). -/
theorem C9_mode_comparison (tests : List (RunStatus × RunStatus)) :
    (mode_comparison tests).1 + (mode_comparison tests).2.1 +
      (mode_comparison tests).2.2 = tests.length ∧
    mode_comparison
      [(RunStatus.SUCCESS, RunStatus.NULLS_REMAINING),
       (RunStatus.SUCCESS, RunStatus.SUCCESS)] = (1, 0, 1) := by
  constructor
  · simpa using mode_comparison_foldl_sum tests 0 0 0
  · decide

/-- Per-file record appended to `results` by
`batch_verify_bad_char_elimination`. -/
structure FileRecord where
  file : String
  output_file : Option String
  success : Bool
  status : String
deriving DecidableEq

/-- The record `batch_verify_bad_char_elimination` builds for one file when
verification returns normally, and the `"ERROR"` record when it raises. -/
def recordOf (fs : FileSystem) (outMap : String → Option String) (S : Finset Nat)
    (f : String) : FileRecord :=
  match verify_bad_char_elimination fs f (outMap f) S with
  | .ok true => ⟨f, outMap f, true, "SUCCESS"⟩
  | .ok false => ⟨f, outMap f, false, "FAILED"⟩
  | .error _ => ⟨f, outMap f, false, "ERROR"⟩

/-- The per-file loop of `batch_verify_bad_char_elimination`: returns
`(successful, failed, errors, results)`.  With `continue_on_error = false`
the loop breaks right after recording a file whose verification raised an
exception; a `False` verdict (including missing files) is tallied as
`FAILED` and the loop continues. -/
def batch_loop (fs : FileSystem) (outMap : String → Option String) (S : Finset Nat)
    (continue_on_error : Bool) : List String → Nat × Nat × Nat × List FileRecord
  | [] => (0, 0, 0, [])
  | f :: rest =>
    match verify_bad_char_elimination fs f (outMap f) S with
    | .ok result =>
      let r := batch_loop fs outMap S continue_on_error rest
      if result then (r.1 + 1, r.2.1, r.2.2.1, ⟨f, outMap f, true, "SUCCESS"⟩ :: r.2.2.2)
      else (r.1, r.2.1 + 1, r.2.2.1, ⟨f, outMap f, false, "FAILED"⟩ :: r.2.2.2)
    | .error _ =>
      if continue_on_error then
        let r := batch_loop fs outMap S continue_on_error rest
        (r.1, r.2.1, r.2.2.1 + 1, ⟨f, outMap f, false, "ERROR"⟩ :: r.2.2.2)
      else (0, 0, 1, [⟨f, outMap f, false, "ERROR"⟩])

/-- Summary dictionary of `batch_verify_bad_char_elimination` (`total` is
set to the number of discovered files up front), together with the
per-file records the loop accumulated. -/
structure BatchStats where
  total : Nat
  successful : Nat
  failed : Nat
  errors : Nat
  results : List FileRecord

/-- Model of `batch_verify_bad_char_elimination` from `verify_denulled.py`, over an
already-discovered list of input files and the input-to-output path
mapping. -/
def batch_verify_bad_char_elimination (fs : FileSystem)
    (outMap : String → Option String) (S : Finset Nat) (continue_on_error : Bool)
    (input_files : List String) : BatchStats :=
  let r := batch_loop fs outMap S continue_on_error input_files
  ⟨input_files.length, r.1, r.2.1, r.2.2.1, r.2.2.2⟩

theorem batch_loop_no_exception (fs : FileSystem) (outMap : String → Option String)
    (S : Finset Nat) (cont : Bool) (files : List String)
    (h : ∀ f ∈ files, ∃ b, verify_bad_char_elimination fs f (outMap f) S = .ok b) :
    (batch_loop fs outMap S cont files).2.2.1 = 0 ∧
    (batch_loop fs outMap S cont files).2.2.2 = files.map (recordOf fs outMap S) := by
  induction files with
  | nil => simp [batch_loop]
  | cons f rest ih =>
    obtain ⟨b, hb⟩ := h f (List.mem_cons_self f rest)
    have hrest := ih (fun g hg => h g (List.mem_cons_of_mem f hg))
    cases b <;>
      simp [batch_loop, recordOf, hb, hrest.1, hrest.2]

/-- Concrete batch scenario for C5: three discovered input files, the
output counterpart of `f2` is missing on disk, everything else exists. -/
def fsC5 : FileSystem := fun p =>
  if p = "f1" then .present [1]
  else if p = "g1" then .present [2]
  else if p = "f2" then .present [1]
  else if p = "f3" then .present [3]
  else if p = "g3" then .present [4]
  else .absent

/-- Output mapping for the C5 scenario. -/
def outMapC5 : String → Option String := fun f =>
  if f = "f1" then some "g1"
  else if f = "f2" then some "g2"
  else if f = "f3" then some "g3"
  else none

/-- C5 counterexample: with `continue_on_error = false` and the 2nd file's
output counterpart missing, the claim predicts `errors = 1` and that file 3
is never verified.  In the code a missing output file makes
`verify_bad_char_elimination` return `False` without raising, so the file
is tallied as `failed`, `errors` stays 0, and all three files are
processed. -/
theorem C5_missing_output_not_an_error :
    (batch_verify_bad_char_elimination fsC5 outMapC5 {0} false ["f1", "f2", "f3"]).errors = 0 ∧
    (batch_verify_bad_char_elimination fsC5 outMapC5 {0} false ["f1", "f2", "f3"]).failed = 1 ∧
    (batch_verify_bad_char_elimination fsC5 outMapC5 {0} false
      ["f1", "f2", "f3"]).results.length = 3 := by
  refine ⟨?_, ?_, ?_⟩ <;>
    simp [batch_verify_bad_char_elimination, batch_loop, verify_bad_char_elimination,
      fsC5, outMapC5, analyze_shellcode_for_bad_chars, scanBad, spanBad]

/-- C5 amended: in a batch run with `continue_on_error = false` where the
2nd file's output counterpart is missing and no file raises an exception,
that file's outcome is recorded as `FAILED` (a fail verdict, not an error),
the errors counter of the returned summary is 0, and processing continues
through all N files (every file gets a result record, in order). -/
theorem C5_batch_missing_output_continues (fs : FileSystem)
    (outMap : String → Option String) (S : Finset Nat) (pre post : List String)
    (f2 o2 : String) (d : List Nat)
    (hall : ∀ f ∈ pre ++ f2 :: post, ∃ b,
      verify_bad_char_elimination fs f (outMap f) S = .ok b)
    (hf2 : fs f2 = .present d) (hmap : outMap f2 = some o2)
    (ho2 : fs o2 = .absent) :
    (batch_verify_bad_char_elimination fs outMap S false (pre ++ f2 :: post)).errors = 0 ∧
    (batch_verify_bad_char_elimination fs outMap S false (pre ++ f2 :: post)).results =
      (pre ++ f2 :: post).map (recordOf fs outMap S) ∧
    recordOf fs outMap S f2 = ⟨f2, some o2, false, "FAILED"⟩ := by
  have h := batch_loop_no_exception fs outMap S false (pre ++ f2 :: post) hall
  refine ⟨h.1, h.2, ?_⟩
  have hv : verify_bad_char_elimination fs f2 (some o2) S = .ok false := by
    simp [verify_bad_char_elimination, hf2, ho2]
  simp [recordOf, hmap, hv]

/-- Witness for C5 amended at the concrete scenario `fsC5`/`outMapC5`. -/
theorem C5_batch_missing_output_continues_witness :
    (batch_verify_bad_char_elimination fsC5 outMapC5 {0} false ["f1", "f2", "f3"]).errors = 0 ∧
    recordOf fsC5 outMapC5 {0} "f2" = ⟨"f2", some "g2", false, "FAILED"⟩ := by
  have h := C5_batch_missing_output_continues fsC5 outMapC5 {0} ["f1"] ["f3"] "f2" "g2" [1]
    (by
      intro f hf
      simp only [List.cons_append, List.nil_append, List.mem_cons,
        List.not_mem_nil, or_false] at hf
      rcases hf with rfl | rfl | rfl <;> exact ⟨_, rfl⟩)
    (by decide) (by decide) (by decide)
  exact ⟨h.1, h.2.2⟩

theorem mem_foldl_addToken (l : List (List Char)) (acc : Finset Nat) (v : Nat) :
    v ∈ l.foldl addToken acc ↔ v ∈ acc ∨ ∃ p ∈ l, tokenVal p = some v := by
  induction l generalizing acc with
  | nil => simp
  | cons p l ih =>
    rw [List.foldl_cons, ih]
    unfold addToken
    cases h : tokenVal p with
    | none =>
      simp only [List.mem_cons]
      constructor
      · rintro (hv | hex)
        · exact Or.inl hv
        · obtain ⟨q, hq, hqv⟩ := hex
          exact Or.inr ⟨q, Or.inr hq, hqv⟩
      · rintro (hv | ⟨q, hq | hq, hqv⟩)
        · exact Or.inl hv
        · subst hq
          rw [h] at hqv
          exact absurd hqv (by simp)
        · exact Or.inr ⟨q, hq, hqv⟩
    | some w =>
      simp only [Finset.mem_insert, List.mem_cons]
      constructor
      · rintro ((hv | hv) | hex)
        · exact Or.inr ⟨p, Or.inl rfl, by rw [h, hv]⟩
        · exact Or.inl hv
        · obtain ⟨q, hq, hqv⟩ := hex
          exact Or.inr ⟨q, Or.inr hq, hqv⟩
      · rintro (hv | ⟨q, hq | hq, hqv⟩)
        · exact Or.inl (Or.inr hv)
        · subst hq
          rw [h] at hqv
          exact Or.inl (Or.inl (Option.some_injective _ hqv).symm)
        · exact Or.inr ⟨q, hq, hqv⟩

theorem tokenVal_le_255 (p : List Char) (v : Nat) (h : tokenVal p = some v) :
    v ≤ 255 := by
  unfold tokenVal at h
  dsimp only at h
  split at h
  · simp at h
  · rcases hx : pyIntHex (pyStrip p) with _ | x <;> rw [hx] at h
    · simp at h
    · have h2 : (if 0 ≤ x ∧ x ≤ 255 then some x.toNat else (none : Option Nat)) = some v := h
      split at h2
      · rename_i hr
        obtain rfl : x.toNat = v := by injection h2
        omega
      · simp at h2

/-- C8: parsing `"00,0a,ZZ"` keeps the valid tokens and drops the invalid
one, giving `{0x00, 0x0a}`; an empty input, or one in which every token is
invalid or out of range, falls back to the default `{0x00}`; whenever at
least one token is valid, the returned set consists exactly of the values
of the valid tokens; and every member of any returned set is at most 255. -/
theorem C8_parse_bad_chars_spec (s : String) (v : Nat) :
    parse_bad_chars "00,0a,ZZ" = {0, 10} ∧
    parse_bad_chars "" = {0} ∧
    ((∀ part ∈ pySplitComma s.data, tokenVal part = none) → parse_bad_chars s = {0}) ∧
    ((∃ part ∈ pySplitComma s.data, ∃ w, tokenVal part = some w) →
      (v ∈ parse_bad_chars s ↔ ∃ part ∈ pySplitComma s.data, tokenVal part = some v)) ∧
    (v ∈ parse_bad_chars s → v ≤ 255) := by
  have hchar : ∀ u : Nat, u ∈ parse_bad_chars s →
      u = 0 ∨ ∃ p ∈ pySplitComma s.data, tokenVal p = some u := by
    intro u hu
    unfold parse_bad_chars at hu
    split at hu
    · simp at hu
      exact Or.inl hu
    · dsimp only at hu
      split at hu
      · simp at hu
        exact Or.inl hu
      · rw [mem_foldl_addToken] at hu
        rcases hu with hu | hu
        · simp at hu
        · exact Or.inr hu
  refine ⟨by decide, by decide, ?_, ?_, ?_⟩
  · intro hall
    unfold parse_bad_chars
    split
    · rfl
    · dsimp only
      split
      · rfl
      · rename_i hne
        exact absurd (Finset.eq_empty_iff_forall_not_mem.mpr (fun u hu => by
          rcases (mem_foldl_addToken _ _ _).mp hu with h0 | ⟨p, hp, hpv⟩
          · simp at h0
          · rw [hall p hp] at hpv
            exact absurd hpv (by simp))) hne
  · rintro ⟨p, hp, w, hw⟩
    have hs : s ≠ "" := by
      rintro rfl
      have : pySplitComma ("" : String).data = [[]] := by decide
      rw [this] at hp
      simp at hp
      subst hp
      rw [show tokenVal [] = none from by decide] at hw
      exact absurd hw (by simp)
    have hwmem : w ∈ (pySplitComma s.data).foldl addToken ∅ := by
      rw [mem_foldl_addToken]
      exact Or.inr ⟨p, hp, hw⟩
    have hne : (pySplitComma s.data).foldl addToken ∅ ≠ ∅ :=
      fun he => by rw [he] at hwmem; simp at hwmem
    unfold parse_bad_chars
    rw [if_neg hs]
    dsimp only
    rw [if_neg hne, mem_foldl_addToken]
    simp
  · intro hv
    rcases hchar v hv with rfl | ⟨p, _, hpv⟩
    · omega
    · exact tokenVal_le_255 p v hpv
/-- Witness for C8: the fully-invalid input `"ZZ,QQ"` falls back to the
default set, the valid-token characterization holds at `"00,0a,ZZ"` for the
value `0x0a`, and that value is within range. -/
theorem C8_parse_bad_chars_spec_witness :
    parse_bad_chars "ZZ,QQ" = {0} ∧
    (10 ∈ parse_bad_chars "00,0a,ZZ" ↔
      ∃ part ∈ pySplitComma "00,0a,ZZ".data, tokenVal part = some 10) ∧
    10 ≤ 255 := by
  have h1 := (C8_parse_bad_chars_spec "ZZ,QQ" 0).2.2.1 (by decide)
  have h2 := (C8_parse_bad_chars_spec "00,0a,ZZ" 10).2.2.2.1
    ⟨['0', '0'], by decide, 0, by decide⟩
  have h3 := (C8_parse_bad_chars_spec "00,0a,ZZ" 10).2.2.2.2
    (by rw [(C8_parse_bad_chars_spec "00,0a,ZZ" 10).1]; decide)
  exact ⟨h1, h2, h3⟩
